import Mathlib

/-!
Shallow embedding of the Daila activity tracker (Rust, DevinLeamy/Daila).

Conventions used throughout:
- `CalendarDate` (`chrono::NaiveDate`) is modelled as a day index: `Nat` for the
  heat-map geometry (where the code casts day differences to `u16`) and `Int`
  for the session stores (where dates move by whole-day predecessor/successor).
  Date equality is index equality; `checked_add_days` is addition;
  `signed_duration_since(..).num_days()` is subtraction.
- `u16`/`u32`/`usize` arithmetic is modelled on `Nat`; all quantities reached
  by the claims stay far below the machine bounds, so no wraparound is modelled.
  Truncating `Nat` subtraction is only relied on where the Rust subtraction
  cannot underflow.
- Fallible code (an `unwrap` that can actually fail on the modelled inputs)
  returns `Option`; `none` models a panic.
-/

/-! ## Heat-map geometry (src/heatmap.rs) -/

/-- `tui::layout::Rect` (`u16` fields). -/
structure Rect where
  x : Nat
  y : Nat
  width : Nat
  height : Nat
deriving DecidableEq

/-- `HeatMap` (src/heatmap.rs): the fields read by the geometry functions.
`date_range` is the pair `(date_range_start, date_range_end)` of day indices;
`rows` is the row count (7 by default). The heat/color ranges and the value
map are not read by `date_to_position`, `position_to_date`, `width`, `height`
or the render-size assertions, and are omitted. -/
structure HeatMap where
  date_range_start : Nat
  date_range_end : Nat
  rows : Nat
deriving DecidableEq

/-- `HeatMap::date_to_position` (src/heatmap.rs:183-191), without its internal
`assert!` (modelled separately as `date_to_position_assert_holds`):
```
let days_from_start = date.signed_duration_since(self.date_range.0).num_days() as u16;
let x = area.x + days_from_start / self.rows;
let y = area.y + 1 + days_from_start % self.rows;
(x * 2, y)
```
-/
def date_to_position (h : HeatMap) (date : Nat) (area : Rect) : Nat × Nat :=
  let days_from_start := date - h.date_range_start
  let x := area.x + days_from_start / h.rows
  let y := area.y + 1 + days_from_start % h.rows
  (x * 2, y)

/-- `HeatMap::position_to_date` (src/heatmap.rs:193-199):
```
let days_from_start = (x - area.x) / 2 * self.rows + (y - area.y - 1);
self.date_range.0.checked_add_days(Days::new(days_from_start.into())).unwrap()
```
-/
def position_to_date (h : HeatMap) (x y : Nat) (area : Rect) : Nat :=
  let days_from_start := (x - area.x) / 2 * h.rows + (y - area.y - 1)
  h.date_range_start + days_from_start

/-- The internal assertion of `date_to_position` (src/heatmap.rs:189):
`assert!(self.position_to_date(2 * x, y, area) == date)` where `x`, `y` are the
pre-scaling coordinates computed in `date_to_position`. -/
def date_to_position_assert_holds (h : HeatMap) (date : Nat) (area : Rect) : Bool :=
  let days_from_start := date - h.date_range_start
  let x := area.x + days_from_start / h.rows
  let y := area.y + 1 + days_from_start % h.rows
  position_to_date h (2 * x) y area == date

/-- `HeatMap::width` (src/heatmap.rs:228-235): `days / self.rows * 2` where
`days = end - start` in days. -/
def HeatMap.width (h : HeatMap) : Nat :=
  (h.date_range_end - h.date_range_start) / h.rows * 2

/-- `HeatMap::height` (src/heatmap.rs:237-239): `self.rows`. -/
def HeatMap.height (h : HeatMap) : Nat :=
  h.rows

/-- The size check at the top of `HeatMap::render` (src/heatmap.rs:247-249):
`assert!(area.width >= self.width()); assert!(area.height >= self.height());`. -/
def render_size_check (h : HeatMap) (area : Rect) : Bool :=
  h.width ≤ area.width && h.height ≤ area.height

/-- All assertions reached by `HeatMap::render` (src/heatmap.rs:246-258) in
this model: the two size assertions, then for every date of the displayed
range `[start, end]` the internal assertion of `date_to_position` (reached
from `draw_date`, `draw_date_month_border` and `draw_month_labels`).
Out-of-bounds cell writes into the terminal buffer are outside this model. -/
def render_asserts_ok (h : HeatMap) (area : Rect) : Bool :=
  render_size_check h area &&
    (List.range (h.date_range_end - h.date_range_start + 1)).all
      (fun k => date_to_position_assert_holds h (h.date_range_start + k) area)

/-- Modelled from the spec's geometry paragraph, for comparison with
`date_to_position`: `col = k / R`, `row_in_col = k mod R`,
`x = area.x + 2·col`, `y = area.y + 1 + row_in_col`. -/
def spec_date_to_position (h : HeatMap) (date : Nat) (area : Rect) : Nat × Nat :=
  let k := date - h.date_range_start
  (area.x + 2 * (k / h.rows), area.y + 1 + k % h.rows)

/-- Modelled from the spec's size requirement, for comparison with
`HeatMap.width`: `width ≥ 2·⌈(D+1)/R⌉` with `D = end - start`, written with
`⌈a/b⌉ = (a + b - 1) / b`. -/
def spec_required_width (h : HeatMap) : Nat :=
  2 * ((h.date_range_end - h.date_range_start + 1 + h.rows - 1) / h.rows)

/-- Modelled from the spec's size requirement, for comparison with
`HeatMap.height`: `height ≥ R + 1`. -/
def spec_required_height (h : HeatMap) : Nat :=
  h.rows + 1

/-- C1: the heat-map geometry functions are NOT mutual inverses on every
drawing area: with `start = 0`, `rows = 7` and an area at `x = 2`, the date
`d = start` maps to position `(8, 1)`, and mapping that position back yields
`start + 7`, not `start`; the code's own internal assertion
(`assert!(position_to_date(2 * x, y, area) == date)`) fails on this input. -/
theorem c1_round_trip_fails_on_offset_area :
    let h : HeatMap := ⟨0, 30, 7⟩
    let area : Rect := ⟨2, 0, 100, 100⟩
    let p := date_to_position h 0 area
    position_to_date h p.1 p.2 area = 7 ∧ (7 : Nat) ≠ 0 ∧
      date_to_position_assert_holds h 0 area = false := by
  refine ⟨by decide, by decide, by decide⟩

/-- C2: `date_to_position` does not return `x = area.x + 2·(k / R)`: the code
computes `x = (area.x + k / R) * 2 = 2·area.x + 2·(k / R)`, which differs from
the spec's formula whenever `area.x ≠ 0`.  At `area.x = 1`, `d = start`
(where the code's internal assertion still passes, so the call returns), the
code yields `x = 2` while the spec's formula yields `x = 1`. -/
theorem c2_date_to_position_doubles_area_x :
    let h : HeatMap := ⟨0, 30, 7⟩
    let area : Rect := ⟨1, 0, 100, 100⟩
    date_to_position h 0 area = (2, 1) ∧
      spec_date_to_position h 0 area = (1, 1) ∧
      ((2, 1) : Nat × Nat) ≠ (1, 1) ∧
      date_to_position_assert_holds h 0 area = true := by
  refine ⟨by decide, by decide, by decide, by decide⟩

/-- C8 counterexample: the renderer's size check does not enforce the spec's
bounds.  With a 365-day span (`start = 0`, `end = 365`) and 7 rows, the check
accepts `width = 104 < 106 = 2·⌈(D+1)/R⌉` and `height = 7 < 8 = R + 1`.
Moreover the spec's bounds alone do not prevent a failing assertion: with a
13-day span and an area at `x = 2` satisfying both spec bounds, rendering
reaches the failing internal assertion of `date_to_position`. -/
theorem c8_size_check_weaker_than_spec :
    (render_size_check ⟨0, 365, 7⟩ ⟨0, 0, 104, 7⟩ = true ∧
      104 < spec_required_width ⟨0, 365, 7⟩ ∧
      7 < spec_required_height ⟨0, 365, 7⟩) ∧
    (spec_required_width ⟨0, 13, 7⟩ ≤ 4 ∧ spec_required_height ⟨0, 13, 7⟩ ≤ 8 ∧
      render_asserts_ok ⟨0, 13, 7⟩ ⟨2, 0, 4, 8⟩ = false) := by
  refine ⟨⟨by decide, by decide, by decide⟩, by decide, by decide, by decide⟩

/-- C8 (amended): the renderer's size check enforces exactly
`area.width ≥ 2·⌊D/R⌋` and `area.height ≥ R` (weaker than the spec's
`2·⌈(D+1)/R⌉` and `R+1`); the spec's bounds imply the check passes, and under
the spec's bounds rendering reaches no failing assertion provided the area's
`x` origin is at most 1. -/
theorem c8_render_size_check_characterization (h : HeatMap) (area : Rect)
    (hrows : 0 < h.rows) :
    (render_size_check h area = true ↔
      ((h.date_range_end - h.date_range_start) / h.rows * 2 ≤ area.width ∧
        h.rows ≤ area.height)) ∧
    (area.x ≤ 1 → spec_required_width h ≤ area.width →
      spec_required_height h ≤ area.height → render_asserts_ok h area = true) := by
  constructor
  · simp [render_size_check, HeatMap.width, HeatMap.height]
  · intro hx hw hh
    have hcheck : render_size_check h area = true := by
      simp only [render_size_check, HeatMap.width, HeatMap.height,
        Bool.and_eq_true, decide_eq_true_eq]
      constructor
      · refine le_trans ?_ hw
        unfold spec_required_width
        have hdiv : (h.date_range_end - h.date_range_start) / h.rows ≤
            (h.date_range_end - h.date_range_start + 1 + h.rows - 1) / h.rows := by
          exact Nat.div_le_div_right (by omega)
        omega
      · unfold spec_required_height at hh
        omega
    simp only [render_asserts_ok, hcheck, Bool.true_and, List.all_eq_true]
    intro k _
    simp only [date_to_position_assert_holds, position_to_date, beq_iff_eq]
    have hk : h.date_range_start + k - h.date_range_start = k := by omega
    rw [hk]
    have hx2 : (2 * (area.x + k / h.rows) - area.x) / 2 = k / h.rows := by
      generalize k / h.rows = c
      omega
    rw [hx2]
    have hdm : k / h.rows * h.rows + k % h.rows = k := by
      rw [Nat.mul_comm]
      exact Nat.div_add_mod k h.rows
    have hy : area.y + 1 + k % h.rows - area.y - 1 = k % h.rows := by omega
    rw [hy]
    omega

/-- C8 witness: a concrete heat map and area satisfying the hypotheses of
`c8_render_size_check_characterization`. -/
theorem c8_render_size_check_characterization_witness :
    (0 : Nat) < (7 : Nat) ∧
      render_asserts_ok ⟨0, 13, 7⟩ ⟨1, 0, 6, 8⟩ = true := by
  have h := c8_render_size_check_characterization ⟨0, 13, 7⟩ ⟨1, 0, 6, 8⟩ (by decide)
  exact ⟨by decide, h.2 (by decide) (by decide) (by decide)⟩

/-! ## Association-list model of `std::collections::BTreeMap` -/

/-- `BTreeMap` lookup (`get` / indexing) on an association list; a `BTreeMap`
holds at most one entry per key, so the first match is the entry. -/
def assocGet {κ α : Type} [DecidableEq κ] (k : κ) : List (κ × α) → Option α
  | [] => none
  | (k', v) :: rest => if k' = k then some v else assocGet k rest

/-- `BTreeMap::insert`: replace the value at an existing key, otherwise insert
keeping keys in ascending order. -/
def assocInsert {κ α : Type} [LinearOrder κ] (k : κ) (v : α) :
    List (κ × α) → List (κ × α)
  | [] => [(k, v)]
  | (k', v') :: rest =>
    if k < k' then (k, v) :: (k', v') :: rest
    else if k = k' then (k, v) :: rest
    else (k', v') :: assocInsert k v rest

/-- Mutation of the value stored at a key (`get_mut`-style update); the list
is unchanged when the key is absent. -/
def assocSet {κ α : Type} [DecidableEq κ] (k : κ) (v : α) :
    List (κ × α) → List (κ × α)
  | [] => []
  | (k', v') :: rest =>
    if k' = k then (k', v) :: rest else (k', v') :: assocSet k v rest

/-- `BTreeMap::remove`. -/
def assocRemove {κ α : Type} [DecidableEq κ] (k : κ) :
    List (κ × α) → List (κ × α)
  | [] => []
  | (k', v') :: rest => if k' = k then rest else (k', v') :: assocRemove k rest

theorem assocGet_insert_self {κ α : Type} [LinearOrder κ] (k : κ) (v : α)
    (l : List (κ × α)) : assocGet k (assocInsert k v l) = some v := by
  induction l with
  | nil => simp [assocInsert, assocGet]
  | cons hd tl ih =>
    obtain ⟨k', v'⟩ := hd
    by_cases h1 : k < k'
    · simp [assocInsert, assocGet, h1]
    · by_cases h2 : k = k'
      · simp [assocInsert, assocGet, h1, h2]
      · have hne : ¬ k' = k := fun h => h2 h.symm
        simp [assocInsert, assocGet, h1, h2, hne, ih]

theorem assocGet_set_self {κ α : Type} [DecidableEq κ] (k : κ) (v w : α)
    (l : List (κ × α)) (h : assocGet k l = some w) :
    assocGet k (assocSet k v l) = some v := by
  induction l with
  | nil => simp [assocGet] at h
  | cons hd tl ih =>
    obtain ⟨k', v'⟩ := hd
    by_cases h1 : k' = k
    · simp [assocSet, assocGet, h1]
    · simp only [assocGet, if_neg h1] at h
      simp [assocSet, assocGet, h1, ih h]

/-! ## Activity stores (src/activites.rs) -/

/-- `ActivityId(u32)` (src/activites.rs:15); ids stay far below `2^32` in all
modelled uses, so the id is a `Nat`. -/
abbrev ActivityId := Nat

/-- `Activity { activity_id, date }` (src/activites.rs:17-21). -/
structure Activity where
  activity_id : ActivityId
  date : Int
deriving DecidableEq

/-- `ActivityType { id, name }` (src/activites.rs:39-43). -/
structure ActivityType where
  id : ActivityId
  name : String
deriving DecidableEq

/-- `ActivityTypesStore { types: BTreeMap<ActivityId, ActivityType> }`
(src/activites.rs:51-54). -/
structure ActivityTypesStore where
  types : List (ActivityId × ActivityType)
deriving DecidableEq

/-- `self.types.contains_key(&ActivityId(id))` for `ActivityTypesStore`. -/
def ActivityTypesStore.contains_key (s : ActivityTypesStore) (id : ActivityId) : Bool :=
  (assocGet id s.types).isSome

/-- The `while self.types.contains_key(&ActivityId(id)) { id += 1; }` loop of
`next_unused_id` (src/activites.rs:64-71), with explicit fuel; the loop
terminates because the map is finite, and `next_unused_id` passes fuel
`types.length + 1`, which is shown sufficient in `nextUnusedAux_spec` and
`exists_unused_le_length`. -/
def nextUnusedAux (s : ActivityTypesStore) : Nat → Nat → Nat
  | 0, id => id
  | fuel + 1, id => if s.contains_key id then nextUnusedAux s fuel (id + 1) else id

/-- `ActivityTypesStore::next_unused_id` (src/activites.rs:64-71). -/
def ActivityTypesStore.next_unused_id (s : ActivityTypesStore) : ActivityId :=
  nextUnusedAux s (s.types.length + 1) 0

/-- `ActivityTypesStore::create_new_activity` (src/activites.rs:57-62):
allocate `next_unused_id`, insert `ActivityType::new(id, name)`, return the
id (modelled as returning the updated store together with the id). -/
def ActivityTypesStore.create_new_activity (s : ActivityTypesStore)
    (name : String) : ActivityTypesStore × ActivityId :=
  let id := s.next_unused_id
  (⟨assocInsert id ⟨id, name⟩ s.types⟩, id)

/-- `ActivityTypesStore::activity_type` (src/activites.rs:73-75). -/
def ActivityTypesStore.activity_type (s : ActivityTypesStore) (id : ActivityId) :
    Option ActivityType :=
  assocGet id s.types

/-- `ActivityTypesStore::activity_types` (src/activites.rs:77-79): the values
in ascending key order. -/
def ActivityTypesStore.activity_types (s : ActivityTypesStore) : List ActivityType :=
  s.types.map Prod.snd

/-- Modelled from the spec: `count() → N` — `daila.rs` calls
`activity_types.len()` but no `len` method appears in src/activites.rs. -/
def ActivityTypesStore.len (s : ActivityTypesStore) : Nat :=
  s.types.length

/-- Modelled from the spec: `rename(id, name)` replaces the name and fails
silently if the id is absent — `daila.rs` calls
`ActivityTypesStore::update_activity(id, title)` but the method is missing
from src/activites.rs. -/
def ActivityTypesStore.update_activity (s : ActivityTypesStore) (id : ActivityId)
    (name : String) : ActivityTypesStore :=
  match assocGet id s.types with
  | some _ => ⟨assocSet id ⟨id, name⟩ s.types⟩
  | none => s

/-- Modelled from the spec: `delete(id)` removes the entry and does not scrub
the log — `daila.rs` calls `ActivityTypesStore::delete_activity_type(id)` but
the method is missing from src/activites.rs. -/
def ActivityTypesStore.delete_activity_type (s : ActivityTypesStore)
    (id : ActivityId) : ActivityTypesStore :=
  ⟨assocRemove id s.types⟩

/-- `ActivitiesStore { days: BTreeMap<CalendarDate, Vec<Activity>> }`
(src/activites.rs:100-103). -/
structure ActivitiesStore where
  days : List (Int × List Activity)
deriving DecidableEq

/-- `ActivitiesStore::add_activity` (src/activites.rs:106-110):
`self.days.entry(date).or_insert_with(Vec::new).push(activity)`. -/
def ActivitiesStore.add_activity (s : ActivitiesStore) (activity : Activity) :
    ActivitiesStore :=
  match assocGet activity.date s.days with
  | some l => ⟨assocSet activity.date (l ++ [activity]) s.days⟩
  | none => ⟨assocInsert activity.date [activity] s.days⟩

/-- `ActivitiesStore::remove_activity` (src/activites.rs:112-115):
`self.days.get_mut(&activity.date).unwrap()` then
`retain(|a| a.activity_id != activity.activity_id)`; `none` models the
`unwrap` panic when the date key is absent. -/
def ActivitiesStore.remove_activity (s : ActivitiesStore) (activity : Activity) :
    Option ActivitiesStore :=
  match assocGet activity.date s.days with
  | some l =>
      some ⟨assocSet activity.date
        (l.filter (fun a => a.activity_id != activity.activity_id)) s.days⟩
  | none => none

/-- `ActivitiesStore::activity_completed` (src/activites.rs:125-133): true iff
some record of the day has the type's id (the day's list defaults to empty). -/
def ActivitiesStore.activity_completed (s : ActivitiesStore) (date : Int)
    (activity_type : ActivityType) : Bool :=
  ((assocGet date s.days).getD []).any (fun a => a.activity_id == activity_type.id)

/-- `ActivitiesStore::activities` (src/activites.rs:135-137). -/
def ActivitiesStore.activities (s : ActivitiesStore) : List Activity :=
  (s.days.map Prod.snd).flatten

/-- `ActivitiesStore::activities_with_type` (src/activites.rs:139-144). -/
def ActivitiesStore.activities_with_type (s : ActivitiesStore)
    (activity_type : ActivityType) : List Activity :=
  s.activities.filter (fun a => a.activity_id == activity_type.id)

/-- `ActivityOption { activity_type, completed }` (src/activites.rs:165-192). -/
structure ActivityOption where
  activity_type : ActivityType
  completed : Bool
deriving DecidableEq

/-- `ActivityOption::activity_id` (src/activites.rs:189-191). -/
def ActivityOption.activity_id (o : ActivityOption) : ActivityId :=
  o.activity_type.id

/-- `ActivityOption::name` via `ActivitySelectorValue` (src/activites.rs:171-175). -/
def ActivityOption.name (o : ActivityOption) : String :=
  o.activity_type.name

/-- The `ToggleSelectedActivity` arm of `Daila::handle_event`
(src/daila.rs:193-206) restricted to the log: the selected option's
`completed` flag was set by `activity_options` to
`activities.activity_completed(date, type)`, and the arm removes the record
when it is set and appends the record otherwise.  `none` models the panic
inside `remove_activity`. -/
def toggle_selected_activity (s : ActivitiesStore) (date : Int)
    (t : ActivityType) : Option ActivitiesStore :=
  if s.activity_completed date t then s.remove_activity ⟨t.id, date⟩
  else some (s.add_activity ⟨t.id, date⟩)

theorem assocGet_isSome_mem {κ α : Type} [DecidableEq κ] (k : κ)
    (l : List (κ × α)) (h : (assocGet k l).isSome = true) :
    k ∈ l.map Prod.fst := by
  induction l with
  | nil => simp [assocGet] at h
  | cons hd tl ih =>
    obtain ⟨k', v'⟩ := hd
    by_cases hk : k' = k
    · simp [hk]
    · simp only [assocGet, if_neg hk] at h
      simp [ih h]

theorem completed_date_isSome (s : ActivitiesStore) (d : Int) (t : ActivityType)
    (h : s.activity_completed d t = true) :
    (assocGet d s.days).isSome = true := by
  cases hg : assocGet d s.days with
  | none =>
    unfold ActivitiesStore.activity_completed at h
    rw [hg] at h
    simp at h
  | some l => simp

theorem add_days_get (s : ActivitiesStore) (a : Activity) :
    ∃ l, assocGet a.date (s.add_activity a).days = some l ∧ a ∈ l := by
  unfold ActivitiesStore.add_activity
  cases hg : assocGet a.date s.days with
  | some l =>
    refine ⟨l ++ [a], ?_, by simp⟩
    simpa using assocGet_set_self a.date (l ++ [a]) l s.days hg
  | none =>
    refine ⟨[a], ?_, by simp⟩
    simpa using assocGet_insert_self a.date [a] s.days

theorem completed_add_self (s : ActivitiesStore) (d : Int) (t : ActivityType) :
    (s.add_activity ⟨t.id, d⟩).activity_completed d t = true := by
  obtain ⟨l, hl, hmem⟩ := add_days_get s ⟨t.id, d⟩
  unfold ActivitiesStore.activity_completed
  rw [show ((⟨t.id, d⟩ : Activity).date) = d from rfl] at hl
  rw [hl]
  simp only [Option.getD_some, List.any_eq_true]
  exact ⟨⟨t.id, d⟩, hmem, by simp⟩

theorem remove_none_iff (s : ActivitiesStore) (a : Activity) :
    s.remove_activity a = none ↔ assocGet a.date s.days = none := by
  unfold ActivitiesStore.remove_activity
  cases hg : assocGet a.date s.days <;> simp

theorem remove_completed_false (s s' : ActivitiesStore) (a : Activity)
    (t : ActivityType) (ht : t.id = a.activity_id)
    (h : s.remove_activity a = some s') :
    s'.activity_completed a.date t = false := by
  unfold ActivitiesStore.remove_activity at h
  cases hg : assocGet a.date s.days with
  | none => rw [hg] at h; simp at h
  | some l =>
    rw [hg] at h
    simp only [Option.some.injEq] at h
    subst h
    unfold ActivitiesStore.activity_completed
    rw [assocGet_set_self a.date _ l s.days hg]
    simp only [Option.getD_some]
    by_contra hany
    rw [Bool.not_eq_false, List.any_eq_true] at hany
    obtain ⟨x, hxmem, hxbeq⟩ := hany
    rw [List.mem_filter] at hxmem
    have hx1 : x.activity_id ≠ a.activity_id := by
      simpa [bne_iff_ne] using hxmem.2
    have hx2 : x.activity_id = t.id := by
      simpa [beq_iff_eq] using hxbeq
    rw [ht] at hx2
    exact hx1 hx2

theorem remove_isSome_of_completed (s : ActivitiesStore) (d : Int)
    (t : ActivityType) (h : s.activity_completed d t = true) :
    (s.remove_activity ⟨t.id, d⟩).isSome = true := by
  have hd := completed_date_isSome s d t h
  unfold ActivitiesStore.remove_activity
  obtain ⟨l, hl⟩ := Option.isSome_iff_exists.mp hd
  rw [show ((⟨t.id, d⟩ : Activity).date) = d from rfl, hl]
  simp

/-- C4: the toggle action is an involution on the log's membership of
`(t, d)`: both toggles succeed (no panic), the first adds the record when
`activity_completed` is false and clears the completion when it is true, and
after the second toggle `activity_completed` has its prior value. -/
theorem c4_toggle_twice_restores_membership (s : ActivitiesStore) (d : Int)
    (t : ActivityType) :
    ∃ s1 s2, toggle_selected_activity s d t = some s1 ∧
      toggle_selected_activity s1 d t = some s2 ∧
      s2.activity_completed d t = s.activity_completed d t ∧
      (s.activity_completed d t = false → s1 = s.add_activity ⟨t.id, d⟩) ∧
      (s.activity_completed d t = true → s1.activity_completed d t = false) := by
  cases hc : s.activity_completed d t with
  | false =>
    have h1 : toggle_selected_activity s d t = some (s.add_activity ⟨t.id, d⟩) := by
      simp [toggle_selected_activity, hc]
    have hca : (s.add_activity ⟨t.id, d⟩).activity_completed d t = true :=
      completed_add_self s d t
    obtain ⟨s2, h2⟩ := Option.isSome_iff_exists.mp
      (remove_isSome_of_completed (s.add_activity ⟨t.id, d⟩) d t hca)
    have h2' : toggle_selected_activity (s.add_activity ⟨t.id, d⟩) d t = some s2 := by
      simp [toggle_selected_activity, hca, h2]
    have hc2 : s2.activity_completed d t = false :=
      remove_completed_false _ _ ⟨t.id, d⟩ t rfl h2
    exact ⟨_, s2, h1, h2', hc2, fun _ => rfl, fun habs => Bool.noConfusion habs⟩
  | true =>
    obtain ⟨s1, h1⟩ := Option.isSome_iff_exists.mp
      (remove_isSome_of_completed s d t hc)
    have h1' : toggle_selected_activity s d t = some s1 := by
      simp [toggle_selected_activity, hc, h1]
    have hc1 : s1.activity_completed d t = false :=
      remove_completed_false _ _ ⟨t.id, d⟩ t rfl h1
    have h2' : toggle_selected_activity s1 d t = some (s1.add_activity ⟨t.id, d⟩) := by
      simp [toggle_selected_activity, hc1]
    exact ⟨s1, _, h1', h2', completed_add_self s1 d t,
      fun habs => Bool.noConfusion habs, fun _ => hc1⟩

/-- C4 witness: the involution applied to a concrete log, date and type. -/
theorem c4_toggle_twice_restores_membership_witness :
    ∃ s1 s2,
      toggle_selected_activity (ActivitiesStore.mk [((0 : Int), [Activity.mk 0 0])])
        0 (ActivityType.mk 0 ("Run")) = some s1 ∧
      toggle_selected_activity s1 0 (ActivityType.mk 0 ("Run")) = some s2 ∧
      s2.activity_completed 0 (ActivityType.mk 0 ("Run")) =
        (ActivitiesStore.mk [((0 : Int), [Activity.mk 0 0])]).activity_completed 0
          (ActivityType.mk 0 ("Run")) ∧
      ((ActivitiesStore.mk [((0 : Int), [Activity.mk 0 0])]).activity_completed 0
          (ActivityType.mk 0 ("Run")) = false →
        s1 = (ActivitiesStore.mk [((0 : Int), [Activity.mk 0 0])]).add_activity
          ⟨(ActivityType.mk 0 ("Run")).id, 0⟩) ∧
      ((ActivitiesStore.mk [((0 : Int), [Activity.mk 0 0])]).activity_completed 0
          (ActivityType.mk 0 ("Run")) = true →
        s1.activity_completed 0 (ActivityType.mk 0 ("Run")) = false) :=
  c4_toggle_twice_restores_membership
    (ActivitiesStore.mk [((0 : Int), [Activity.mk 0 0])]) 0 (ActivityType.mk 0 ("Run"))

/-- C9: `remove_activity` panics exactly when the log has no entry sequence
for `record.date`, and the toggle path cannot hit the panic: when
`activity_completed(d, t)` is true the date key is present, so the `remove`
called by the toggle arm succeeds, and the toggle action as a whole never
panics. -/
theorem c9_remove_activity_panic_condition (s : ActivitiesStore) (a : Activity) :
    (s.remove_activity a = none ↔ assocGet a.date s.days = none) ∧
    (∀ d t, s.activity_completed d t = true →
      (s.remove_activity ⟨t.id, d⟩).isSome = true) ∧
    (∀ d t, (toggle_selected_activity s d t).isSome = true) := by
  refine ⟨remove_none_iff s a, fun d t h => remove_isSome_of_completed s d t h, ?_⟩
  intro d t
  unfold toggle_selected_activity
  cases hc : s.activity_completed d t with
  | true => simpa using remove_isSome_of_completed s d t hc
  | false => simp

/-- C9 witness: the panic condition applied to a concrete log with one record,
with the completion hypothesis discharged by evaluation. -/
theorem c9_remove_activity_panic_condition_witness :
    (ActivitiesStore.mk [((0 : Int), [Activity.mk 0 0])]).activity_completed 0
      (ActivityType.mk 0 ("Run")) = true ∧
    ((ActivitiesStore.mk [((0 : Int), [Activity.mk 0 0])]).remove_activity
      ⟨(ActivityType.mk 0 ("Run")).id, 0⟩).isSome = true :=
  ⟨by decide,
    (c9_remove_activity_panic_condition
      (ActivitiesStore.mk [((0 : Int), [Activity.mk 0 0])]) (Activity.mk 0 0)).2.1
      0 (ActivityType.mk 0 ("Run")) (by decide)⟩

theorem nextUnusedAux_spec (s : ActivityTypesStore) :
    ∀ fuel id : Nat, (∃ j : Nat, id ≤ j ∧ j < id + fuel ∧ s.contains_key j = false) →
      s.contains_key (nextUnusedAux s fuel id) = false ∧
      ∀ m : Nat, id ≤ m → m < nextUnusedAux s fuel id → s.contains_key m = true := by
  intro fuel
  induction fuel with
  | zero =>
    rintro id ⟨j, h1, h2, _⟩
    omega
  | succ fuel ih =>
    rintro id ⟨j, h1, h2, h3⟩
    cases hck : s.contains_key id with
    | false =>
      have hres : nextUnusedAux s (fuel + 1) id = id := by
        simp [nextUnusedAux, hck]
      rw [hres]
      exact ⟨hck, fun m hm1 hm2 => absurd hm2 (by omega)⟩
    | true =>
      have hne : j ≠ id := by
        intro he
        subst he
        rw [h3] at hck
        cases hck
      have hrec := ih (id + 1) ⟨j, by omega, by omega, h3⟩
      have hres : nextUnusedAux s (fuel + 1) id = nextUnusedAux s fuel (id + 1) := by
        simp [nextUnusedAux, hck]
      rw [hres]
      refine ⟨hrec.1, ?_⟩
      intro m hm1 hm2
      by_cases hm : m = id
      · rw [hm]; exact hck
      · exact hrec.2 m (by omega) hm2

theorem exists_unused_le_length (s : ActivityTypesStore) :
    ∃ j : Nat, j ≤ s.types.length ∧ s.contains_key j = false := by
  by_contra hall
  push_neg at hall
  have hmem : ∀ j, j < s.types.length + 1 → j ∈ s.types.map Prod.fst := by
    intro j hj
    have hne := hall j (by omega)
    have hck : s.contains_key j = true := by
      cases hck : s.contains_key j
      · exact absurd hck hne
      · rfl
    exact assocGet_isSome_mem j s.types hck
  have hsub : Finset.range (s.types.length + 1) ⊆ (s.types.map Prod.fst).toFinset := by
    intro j hj
    rw [List.mem_toFinset]
    exact hmem j (Finset.mem_range.mp hj)
  have hcard := Finset.card_le_card hsub
  rw [Finset.card_range] at hcard
  have hle := List.toFinset_card_le (s.types.map Prod.fst)
  rw [List.length_map] at hle
  omega

/-- C6: `create_new_activity` returns the smallest id not present in the
registry and inserts `{id, name}` at it; in particular, starting from the
empty registry, create, create, delete(0), create yields ids 0, 1, then 0
again, and the registry then lists `[(0, "Read"), (1, "Run")]`. -/
theorem c6_create_allocates_smallest_unused (s : ActivityTypesStore)
    (name : String) :
    (s.contains_key (s.create_new_activity name).2 = false ∧
      (∀ j : Nat, j < (s.create_new_activity name).2 → s.contains_key j = true) ∧
      (s.create_new_activity name).1.activity_type (s.create_new_activity name).2 =
        some ⟨(s.create_new_activity name).2, name⟩) ∧
    ((ActivityTypesStore.mk []).create_new_activity ("Meditate")).2 = 0 ∧
    (((ActivityTypesStore.mk []).create_new_activity ("Meditate")).1.create_new_activity
      ("Run")).2 = 1 ∧
    (((((ActivityTypesStore.mk []).create_new_activity ("Meditate")).1.create_new_activity
      ("Run")).1.delete_activity_type 0).create_new_activity ("Read")).2 = 0 ∧
    ((((((ActivityTypesStore.mk []).create_new_activity ("Meditate")).1.create_new_activity
      ("Run")).1.delete_activity_type 0).create_new_activity ("Read")).1.activity_types.map
        (fun t => (t.id, t.name))) = [(0, ("Read")), (1, ("Run"))] := by
  obtain ⟨j, hj1, hj2⟩ := exists_unused_le_length s
  have hspec := nextUnusedAux_spec s (s.types.length + 1) 0
    ⟨j, Nat.zero_le j, by omega, hj2⟩
  refine ⟨⟨hspec.1, fun j hj => hspec.2 j (Nat.zero_le j) hj, ?_⟩, by decide, by decide,
    by decide, by decide⟩
  simpa [ActivityTypesStore.create_new_activity, ActivityTypesStore.activity_type]
    using assocGet_insert_self s.next_unused_id
      (ActivityType.mk s.next_unused_id name) s.types

/-- C6 witness: the allocation property applied to a concrete registry holding
ids 0 and 2, where the smallest unused id is 1. -/
theorem c6_create_allocates_smallest_unused_witness :
    (ActivityTypesStore.mk [(0, ActivityType.mk 0 ("A")), (2, ActivityType.mk 2 ("B"))]).contains_key
      ((ActivityTypesStore.mk [(0, ActivityType.mk 0 ("A")),
        (2, ActivityType.mk 2 ("B"))]).create_new_activity ("C")).2 = false ∧
    (0 : Nat) <
      ((ActivityTypesStore.mk [(0, ActivityType.mk 0 ("A")),
        (2, ActivityType.mk 2 ("B"))]).create_new_activity ("C")).2 ∧
    (ActivityTypesStore.mk [(0, ActivityType.mk 0 ("A")),
        (2, ActivityType.mk 2 ("B"))]).contains_key 0 = true :=
  ⟨(c6_create_allocates_smallest_unused
      (ActivityTypesStore.mk [(0, ActivityType.mk 0 ("A")), (2, ActivityType.mk 2 ("B"))])
      ("C")).1.1,
    by decide,
    (c6_create_allocates_smallest_unused
      (ActivityTypesStore.mk [(0, ActivityType.mk 0 ("A")), (2, ActivityType.mk 2 ("B"))])
      ("C")).1.2.1 0 (by decide)⟩

/-! ## Activity selector (src/activity_selector.rs) -/

/-- `ACTIVITIES_PER_ROW` (src/activity_selector.rs:12). -/
def ACTIVITIES_PER_ROW : Nat := 3

/-- `ActivitySelectorState` (src/activity_selector.rs:14-18). -/
structure ActivitySelectorState where
  activity_count : Nat
  selected_index : Option Nat
deriving DecidableEq

/-- `ActivitySelectorState::new` (src/activity_selector.rs:21-26). -/
def ActivitySelectorState.new (activity_count : Nat) : ActivitySelectorState :=
  ⟨activity_count, if activity_count = 0 then none else some 0⟩

/-- `ActivitySelectorState::select_right` (src/activity_selector.rs:27-31). -/
def ActivitySelectorState.select_right (s : ActivitySelectorState) :
    ActivitySelectorState :=
  match s.selected_index with
  | some index => { s with selected_index := some ((index + 1) % s.activity_count) }
  | none => s

/-- `ActivitySelectorState::select_left` (src/activity_selector.rs:33-37). -/
def ActivitySelectorState.select_left (s : ActivitySelectorState) :
    ActivitySelectorState :=
  match s.selected_index with
  | some index =>
      { s with selected_index := some ((index + s.activity_count - 1) % s.activity_count) }
  | none => s

/-- `ActivitySelectorState::select_up` (src/activity_selector.rs:39-45). -/
def ActivitySelectorState.select_up (s : ActivitySelectorState) :
    ActivitySelectorState :=
  match s.selected_index with
  | some index =>
      if ACTIVITIES_PER_ROW ≤ index then
        { s with selected_index := some (index - ACTIVITIES_PER_ROW) }
      else s
  | none => s

/-- `ActivitySelectorState::select_down` (src/activity_selector.rs:47-53). -/
def ActivitySelectorState.select_down (s : ActivitySelectorState) :
    ActivitySelectorState :=
  match s.selected_index with
  | some index =>
      if index + ACTIVITIES_PER_ROW < s.activity_count then
        { s with selected_index := some (index + ACTIVITIES_PER_ROW) }
      else s
  | none => s

/-- The selector invariant of the spec: `selected_index = None` iff the count
is 0, else `selected_index < count`. -/
def ActivitySelectorState.invariant_holds (s : ActivitySelectorState) : Bool :=
  match s.selected_index with
  | none => s.activity_count == 0
  | some i => decide (i < s.activity_count)

/-! ## Keyboard events (crossterm `KeyCode`, the variants the program reads) -/

/-- The `crossterm::event::KeyCode` variants matched anywhere in the program;
`Esc` stands for any key the program never matches. A key event carries its
code; non-key events are matched by no handler and are dropped before the
state machine, so events are modelled by their key code. -/
inductive KeyCode where
  | Char : Char → KeyCode
  | Left
  | Right
  | Up
  | Down
  | Enter
  | Backspace
  | Esc
deriving DecidableEq

/-! ## Activity editor/creator popup (src/activity_popup.rs) -/

/-- `CursorPosition` of the activity popup (src/activity_popup.rs:20-25). -/
inductive ActivityCursorPosition where
  | TextInput
  | CreateOrEditButton
  | ExitButton
deriving DecidableEq

/-- `CursorPosition::next` of the activity popup (src/activity_popup.rs:27-54). -/
def ActivityCursorPosition.next (c : ActivityCursorPosition)
    (last_position : Option ActivityCursorPosition) (direction : KeyCode) :
    ActivityCursorPosition :=
  match c with
  | .TextInput =>
    match direction with
    | .Down =>
      match last_position with
      | some p => if p ≠ ActivityCursorPosition.TextInput then p else .ExitButton
      | none => .ExitButton
    | _ => .TextInput
  | .CreateOrEditButton =>
    match direction with
    | .Up => .TextInput
    | .Left => .ExitButton
    | _ => .CreateOrEditButton
  | .ExitButton =>
    match direction with
    | .Up => .TextInput
    | .Right => .CreateOrEditButton
    | _ => .ExitButton

/-- `PopupType` (src/activity_popup.rs:56-59). -/
inductive PopupType where
  | Create
  | Edit
deriving DecidableEq

/-- `ActivityPopupState` (src/activity_popup.rs:64-70); the text buffer is the
string's character list. -/
structure ActivityPopupState where
  last_cursor_position : Option ActivityCursorPosition
  cursor_position : ActivityCursorPosition
  text_input : List Char
  popup_type : PopupType
  activity_id : Option ActivityId
deriving DecidableEq

/-- `ActivityPopupState::new_editor` (src/activity_popup.rs:76-84). -/
def ActivityPopupState.new_editor (activity_title : String)
    (activity_id : ActivityId) : ActivityPopupState :=
  ⟨none, .TextInput, activity_title.toList, .Edit, some activity_id⟩

/-- `ActivityPopupState::new_creator` (src/activity_popup.rs:89-97). -/
def ActivityPopupState.new_creator : ActivityPopupState :=
  ⟨none, .TextInput, [], .Create, none⟩

/-- `ActivityPopupAction` (src/activity_popup.rs:14-18). -/
inductive ActivityPopupAction where
  | CreateActivity : List Char → ActivityPopupAction
  | EditActivity : ActivityId → List Char → ActivityPopupAction
  | Exit
deriving DecidableEq

/-- `ActivityPopup::handle_event` (src/activity_popup.rs:103-139).  The Rust
function mutates the state and returns `Option<Action>`; here it returns the
updated state with the optional action.  The outer `none` models the
`state.activity_id.unwrap()` panic (Enter on the primary button of an Edit
popup whose id is absent — never built by the program).  Note the source
guards `Char(c)` by focus but `Backspace` is unguarded. -/
def ActivityPopup.handle_event (event : KeyCode) (state : ActivityPopupState) :
    Option (ActivityPopupState × Option ActivityPopupAction) :=
  match event with
  | .Enter =>
    match state.cursor_position with
    | .TextInput => some (state, none)
    | .CreateOrEditButton =>
      match state.popup_type with
      | .Create => some (state, some (.CreateActivity state.text_input))
      | .Edit =>
        match state.activity_id with
        | some id => some (state, some (.EditActivity id state.text_input))
        | none => none
    | .ExitButton => some (state, some .Exit)
  | .Left | .Right | .Up | .Down =>
    let new_position := state.cursor_position.next state.last_cursor_position event
    some ({ state with
      last_cursor_position := some state.cursor_position
      cursor_position := new_position }, none)
  | .Char c =>
    if state.cursor_position = ActivityCursorPosition.TextInput then
      some ({ state with text_input := state.text_input ++ [c] }, none)
    else some (state, none)
  | .Backspace => some ({ state with text_input := state.text_input.dropLast }, none)
  | _ => some (state, none)

/-! ## Confirmation popup (src/confirmation_popup.rs) -/

/-- `CursorPosition` of the confirmation popup (src/confirmation_popup.rs:11-15). -/
inductive ConfirmationCursorPosition where
  | LeftButton
  | RightButton
deriving DecidableEq

/-- `CursorPosition::next` of the confirmation popup
(src/confirmation_popup.rs:17-30). -/
def ConfirmationCursorPosition.next (c : ConfirmationCursorPosition)
    (direction : KeyCode) : ConfirmationCursorPosition :=
  match c with
  | .LeftButton =>
    match direction with
    | .Right => .RightButton
    | _ => .LeftButton
  | .RightButton =>
    match direction with
    | .Left => .LeftButton
    | _ => .RightButton

/-- `ConfirmationPopupAction` (src/confirmation_popup.rs:35-38). -/
inductive ConfirmationPopupAction where
  | Accept
  | Decline
deriving DecidableEq

/-- `ConfirmationPopupState` (src/confirmation_popup.rs:40-43). -/
structure ConfirmationPopupState where
  cursor_position : ConfirmationCursorPosition
  prompt : String
deriving DecidableEq

/-- `ConfirmationPopupState::new` (src/confirmation_popup.rs:45-52): the
cursor starts on the left (cancel) button. -/
def ConfirmationPopupState.new (prompt : String) : ConfirmationPopupState :=
  ⟨.LeftButton, prompt⟩

/-- `ConfirmationPopup::handle_event` (src/confirmation_popup.rs:57-73),
returning the updated state with the optional action. -/
def ConfirmationPopup.handle_event (event : KeyCode)
    (state : ConfirmationPopupState) :
    ConfirmationPopupState × Option ConfirmationPopupAction :=
  match event with
  | .Left | .Right =>
    ({ state with cursor_position := state.cursor_position.next event }, none)
  | .Enter =>
    (state,
      some (match state.cursor_position with
        | .LeftButton => ConfirmationPopupAction.Decline
        | .RightButton => ConfirmationPopupAction.Accept))
  | _ => (state, none)

/-! ## Session state machine (src/daila.rs) -/

/-- `DailaEvent` (src/daila.rs:31-46). -/
inductive DailaEvent where
  | GotoPreviousDay
  | GotoNextDay
  | GotoToday
  | ActivityUp
  | ActivityDown
  | ActivityLeft
  | ActivityRight
  | ToggleSelectedActivity
  | SaveAndQuit
  | QuitWithoutSaving
  | CreateNewActivity
  | EditSelectedActivity
  | DeleteSelectedActivity
deriving DecidableEq

/-- `DailaEvent::from_keycode` (src/daila.rs:56-73). -/
def DailaEvent.from_keycode (code : KeyCode) : Option DailaEvent :=
  match code with
  | .Char c =>
    if c = 'f' then some .GotoNextDay
    else if c = 'F' then some .GotoPreviousDay
    else if c = 'r' then some .GotoToday
    else if c = 's' then some .SaveAndQuit
    else if c = 'q' then some .QuitWithoutSaving
    else if c = 'c' then some .CreateNewActivity
    else if c = 'e' then some .EditSelectedActivity
    else if c = 'd' then some .DeleteSelectedActivity
    else if c = 'a' then some .ToggleSelectedActivity
    else none
  | .Right => some .ActivityRight
  | .Left => some .ActivityLeft
  | .Up => some .ActivityUp
  | .Down => some .ActivityDown
  | _ => none

/-- `ConfirmationAction` (src/daila.rs:24-27); `SaveWithoutQuitting` is the
source's (misleadingly named) pending quit-without-saving action. -/
inductive ConfirmationAction where
  | SaveWithoutQuitting
  | DeleteActivity : ActivityId → ConfirmationAction
deriving DecidableEq

/-- `DailaState` (src/daila.rs:108-117). -/
inductive DailaState where
  | Default
  | ActivityPopup : ActivityPopupState → DailaState
  | ConfirmationPopup : ConfirmationAction → ConfirmationPopupState → DailaState
deriving DecidableEq

/-- `Daila` (src/daila.rs:119-129). -/
structure Daila where
  activity_types : ActivityTypesStore
  activities : ActivitiesStore
  active_date : Int
  activity_selector_state : ActivitySelectorState
  running : Bool
  state : DailaState
  refresh : Bool
deriving DecidableEq

/-- A disk write performed by the session: `store.save()` with the saved
contents. -/
inductive StoreWrite where
  | saveTypes : ActivityTypesStore → StoreWrite
  | saveActivities : ActivitiesStore → StoreWrite
deriving DecidableEq

/-- `Daila::new` (src/daila.rs:132-145) with the two loaded stores and today's
date as inputs (loading and the clock are external). -/
def Daila.new (activity_types : ActivityTypesStore) (activities : ActivitiesStore)
    (today : Int) : Daila :=
  ⟨activity_types, activities, today, ActivitySelectorState.new activity_types.len,
    false, .Default, false⟩

/-- Stable insertion of an option into a list sorted by ascending id (helper
for the `sort_by` call in `activity_options`). -/
def insertByActivityId (o : ActivityOption) :
    List ActivityOption → List ActivityOption
  | [] => [o]
  | b :: rest =>
    if o.activity_id ≤ b.activity_id then o :: b :: rest
    else b :: insertByActivityId o rest

/-- `options.sort_by(|a, b| a.activity_id().0.cmp(&b.activity_id().0))`
(src/activites.rs:207): a stable sort by ascending id, modelled by insertion
sort. -/
def sortByActivityId : List ActivityOption → List ActivityOption
  | [] => []
  | a :: rest => insertByActivityId a (sortByActivityId rest)

/-- `activity_options` (src/activites.rs:194-210). -/
def activity_options (activity_types : ActivityTypesStore)
    (activities : ActivitiesStore) (date : Int) : List ActivityOption :=
  sortByActivityId (activity_types.activity_types.map
    (fun t => ActivityOption.mk t (activities.activity_completed date t)))

/-- `Daila::activity_selector_options` (src/daila.rs:293-299). -/
def Daila.activity_selector_options (d : Daila) : List ActivityOption :=
  activity_options d.activity_types d.activities d.active_date

/-- `Daila::selected_activity_option` (src/daila.rs:301-307). -/
def Daila.selected_activity_option (d : Daila) : Option ActivityOption :=
  match d.activity_selector_state.selected_index with
  | some index => d.activity_selector_options.get? index
  | none => none

/-- `Daila::handle_event` (src/daila.rs:172-291), as a function from the
current `today` date (read by `GotoToday`), the key code and the session to
the next session plus the list of disk writes it performs.  `some (d, [])`
covers every path that writes nothing, including the early `?` returns;
`none` models a panic (`remove_activity` on an absent date key, or the
activity popup's `unwrap`). -/
def Daila.handle_event (today : Int) (event : KeyCode) (d : Daila) :
    Option (Daila × List StoreWrite) :=
  match d.state with
  | .Default =>
    match DailaEvent.from_keycode event with
    | none => some (d, [])
    | some daila_event =>
      match daila_event with
      | .QuitWithoutSaving =>
        some ({ d with
          refresh := true
          state := DailaState.ConfirmationPopup ConfirmationAction.SaveWithoutQuitting
            (ConfirmationPopupState.new ("Quit without saving?")) }, [])
      | .SaveAndQuit =>
        some ({ d with running := false },
          [StoreWrite.saveTypes d.activity_types,
            StoreWrite.saveActivities d.activities])
      | .ToggleSelectedActivity =>
        match d.selected_activity_option with
        | some activity_option =>
          if activity_option.completed then
            match d.activities.remove_activity
                ⟨activity_option.activity_id, d.active_date⟩ with
            | some acts => some ({ d with activities := acts }, [])
            | none => none
          else
            let acts := d.activities.add_activity
              ⟨activity_option.activity_id, d.active_date⟩
            some ({ d with activities := acts }, [])
        | none => some (d, [])
      | .CreateNewActivity =>
        some ({ d with
          refresh := true
          state := DailaState.ActivityPopup ActivityPopupState.new_creator }, [])
      | .EditSelectedActivity =>
        match d.selected_activity_option with
        | some activity_option =>
          some ({ d with
            refresh := true
            state := DailaState.ActivityPopup
              (ActivityPopupState.new_editor activity_option.name
                activity_option.activity_id) }, [])
        | none => some ({ d with refresh := true }, [])
      | .DeleteSelectedActivity =>
        match d.selected_activity_option with
        | some activity_option =>
          some ({ d with
            refresh := true
            state := DailaState.ConfirmationPopup
              (ConfirmationAction.DeleteActivity activity_option.activity_id)
              (ConfirmationPopupState.new
                (("Confirm deletion of: ") ++ activity_option.name)) }, [])
        | none => some ({ d with refresh := true }, [])
      | .GotoPreviousDay => some ({ d with active_date := d.active_date - 1 }, [])
      | .GotoNextDay => some ({ d with active_date := d.active_date + 1 }, [])
      | .GotoToday => some ({ d with active_date := today }, [])
      | .ActivityLeft =>
        some ({ d with activity_selector_state :=
          d.activity_selector_state.select_left }, [])
      | .ActivityRight =>
        some ({ d with activity_selector_state :=
          d.activity_selector_state.select_right }, [])
      | .ActivityUp =>
        some ({ d with activity_selector_state :=
          d.activity_selector_state.select_up }, [])
      | .ActivityDown =>
        some ({ d with activity_selector_state :=
          d.activity_selector_state.select_down }, [])
  | .ActivityPopup popup_state =>
    match ActivityPopup.handle_event event popup_state with
    | none => none
    | some (popup_state', none) =>
      some ({ d with state := DailaState.ActivityPopup popup_state' }, [])
    | some (_, some action) =>
      match action with
      | .Exit => some ({ d with refresh := true, state := DailaState.Default }, [])
      | .CreateActivity title =>
        let types := (d.activity_types.create_new_activity (String.mk title)).1
        some ({ d with
          refresh := true
          state := DailaState.Default
          activity_types := types
          activity_selector_state :=
            ActivitySelectorState.new types.activity_types.length }, [])
      | .EditActivity id title =>
        some ({ d with
          refresh := true
          state := DailaState.Default
          activity_types := d.activity_types.update_activity id (String.mk title) }, [])
  | .ConfirmationPopup action popup_state =>
    match ConfirmationPopup.handle_event event popup_state with
    | (popup_state', none) =>
      some ({ d with state := DailaState.ConfirmationPopup action popup_state' }, [])
    | (_, some popup_action) =>
      match popup_action with
      | .Decline => some ({ d with state := DailaState.Default }, [])
      | .Accept =>
        match action with
        | .SaveWithoutQuitting =>
          some ({ d with running := false, state := DailaState.Default }, [])
        | .DeleteActivity id =>
          let types := d.activity_types.delete_activity_type id
          some ({ d with
            activity_types := types
            activity_selector_state :=
              ActivitySelectorState.new types.activity_types.length
            state := DailaState.Default }, [])

/-! ## The legacy event loop of src/main.rs -/

/-- The key handling of `run_daila` in src/main.rs:85-111: `'q'` stops the
loop; a digit key toggles the option at that index (remove when completed,
add when not); everything else is ignored.  Returns the updated log and the
loop flag; `none` models the `remove_activity` panic. -/
def legacy_handle_key (activity_types : ActivityTypesStore)
    (activities : ActivitiesStore) (active_date : Int) (key : KeyCode) :
    Option (ActivitiesStore × Bool) :=
  match key with
  | .Char c =>
    if c = 'q' then some (activities, false)
    else if c.isDigit then
      let index := c.toNat - ('0').toNat
      match (activity_options activity_types activities active_date).get? index with
      | some option =>
        if option.completed then
          (activities.remove_activity ⟨option.activity_id, active_date⟩).map
            (fun s => (s, true))
        else some (activities.add_activity ⟨option.activity_id, active_date⟩, true)
      | none => some (activities, true)
    else some (activities, true)
  | _ => some (activities, true)

/-- The loop of `run_daila` in src/main.rs:60-117 over a finite key sequence:
when the loop exits (only via `'q'`), both stores are saved
(src/main.rs:114-116) — the types store unchanged and the log as mutated.
`none`: the key sequence ran out with the loop still running (the real loop
would block), or a panic. -/
def legacy_run (activity_types : ActivityTypesStore) :
    ActivitiesStore → Int → List KeyCode → Option (ActivitiesStore × List StoreWrite)
  | _, _, [] => none
  | activities, active_date, key :: keys =>
    match legacy_handle_key activity_types activities active_date key with
    | none => none
    | some (acts, running) =>
      if running then legacy_run activity_types acts active_date keys
      else some (acts, [StoreWrite.saveTypes activity_types,
        StoreWrite.saveActivities acts])

theorem invariant_holds_new (n : Nat) :
    (ActivitySelectorState.new n).invariant_holds = true := by
  by_cases hn : n = 0
  · simp [ActivitySelectorState.new, ActivitySelectorState.invariant_holds, hn]
  · simp [ActivitySelectorState.new, ActivitySelectorState.invariant_holds, hn]
    omega

theorem invariant_holds_index (s : ActivitySelectorState) (i : Nat)
    (h : s.invariant_holds = true) (hsel : s.selected_index = some i) :
    i < s.activity_count := by
  unfold ActivitySelectorState.invariant_holds at h
  rw [hsel] at h
  exact of_decide_eq_true h

theorem invariant_holds_select_left (s : ActivitySelectorState)
    (h : s.invariant_holds = true) : s.select_left.invariant_holds = true := by
  unfold ActivitySelectorState.select_left
  cases hsel : s.selected_index with
  | none => exact h
  | some i =>
    have hi := invariant_holds_index s i h hsel
    have hpos : 0 < s.activity_count := Nat.lt_of_le_of_lt (Nat.zero_le i) hi
    exact decide_eq_true (Nat.mod_lt _ hpos)

theorem invariant_holds_select_right (s : ActivitySelectorState)
    (h : s.invariant_holds = true) : s.select_right.invariant_holds = true := by
  unfold ActivitySelectorState.select_right
  cases hsel : s.selected_index with
  | none => exact h
  | some i =>
    have hi := invariant_holds_index s i h hsel
    have hpos : 0 < s.activity_count := Nat.lt_of_le_of_lt (Nat.zero_le i) hi
    exact decide_eq_true (Nat.mod_lt _ hpos)

theorem invariant_holds_select_up (s : ActivitySelectorState)
    (h : s.invariant_holds = true) : s.select_up.invariant_holds = true := by
  unfold ActivitySelectorState.select_up
  cases hsel : s.selected_index with
  | none => exact h
  | some i =>
    have hi := invariant_holds_index s i h hsel
    dsimp only
    by_cases h3 : ACTIVITIES_PER_ROW ≤ i
    · rw [if_pos h3]
      exact decide_eq_true (Nat.lt_of_le_of_lt (Nat.sub_le i ACTIVITIES_PER_ROW) hi)
    · rw [if_neg h3]
      exact h

theorem invariant_holds_select_down (s : ActivitySelectorState)
    (h : s.invariant_holds = true) : s.select_down.invariant_holds = true := by
  unfold ActivitySelectorState.select_down
  cases hsel : s.selected_index with
  | none => exact h
  | some i =>
    dsimp only
    by_cases h3 : i + ACTIVITIES_PER_ROW < s.activity_count
    · rw [if_pos h3]
      exact decide_eq_true h3
    · rw [if_neg h3]
      exact h

theorem handle_event_shape (today : Int) (e : KeyCode) (d d' : Daila)
    (ws : List StoreWrite) (h : Daila.handle_event today e d = some (d', ws)) :
    (d'.activity_selector_state = d.activity_selector_state ∨
      d'.activity_selector_state = d.activity_selector_state.select_left ∨
      d'.activity_selector_state = d.activity_selector_state.select_right ∨
      d'.activity_selector_state = d.activity_selector_state.select_up ∨
      d'.activity_selector_state = d.activity_selector_state.select_down ∨
      ∃ n, d'.activity_selector_state = ActivitySelectorState.new n) ∧
    (ws = [] ∨
      (ws = [StoreWrite.saveTypes d.activity_types,
        StoreWrite.saveActivities d.activities] ∧
        d.state = DailaState.Default ∧
        DailaEvent.from_keycode e = some DailaEvent.SaveAndQuit)) ∧
    (d.state = DailaState.Default →
      DailaEvent.from_keycode e = some DailaEvent.SaveAndQuit →
      ws = [StoreWrite.saveTypes d.activity_types,
        StoreWrite.saveActivities d.activities]) := by
  unfold Daila.handle_event at h
  repeat' split at h
  all_goals
    first
      | exact Option.noConfusion h
      | (simp only [Option.some.injEq, Prod.mk.injEq] at h
         obtain ⟨h1, h2⟩ := h
         subst h1
         subst h2
         refine ⟨?_, ?_, ?_⟩
         · first
             | exact Or.inl rfl
             | exact Or.inr (Or.inl rfl)
             | exact Or.inr (Or.inr (Or.inl rfl))
             | exact Or.inr (Or.inr (Or.inr (Or.inl rfl)))
             | exact Or.inr (Or.inr (Or.inr (Or.inr (Or.inl rfl))))
             | exact Or.inr (Or.inr (Or.inr (Or.inr (Or.inr ⟨_, rfl⟩))))
         · first
             | exact Or.inl rfl
             | exact Or.inr ⟨rfl, by simp_all, by simp_all⟩
         · intro hdef hsq
           simp_all)

/-- C3: the selector invariant (`selected_index` is `Some` iff the count is
positive, and any `Some` index is below the count) holds for every freshly
built selector state — in particular for the session's initial state — and is
preserved by each of the four motions and by every step of the session state
machine, whose only selector updates are the four motions and the rebuild
`ActivitySelectorState::new` after create and delete; hence it holds in every
reachable session state. -/
theorem c3_selector_invariant :
    (∀ n : Nat, (ActivitySelectorState.new n).invariant_holds = true) ∧
    (∀ (types : ActivityTypesStore) (acts : ActivitiesStore) (today : Int),
      (Daila.new types acts today).activity_selector_state.invariant_holds = true) ∧
    (∀ s : ActivitySelectorState, s.invariant_holds = true →
      s.select_left.invariant_holds = true ∧
      s.select_right.invariant_holds = true ∧
      s.select_up.invariant_holds = true ∧
      s.select_down.invariant_holds = true) ∧
    (∀ (today : Int) (e : KeyCode) (d d' : Daila) (ws : List StoreWrite),
      d.activity_selector_state.invariant_holds = true →
      Daila.handle_event today e d = some (d', ws) →
      d'.activity_selector_state.invariant_holds = true) := by
  refine ⟨invariant_holds_new, fun types acts today => invariant_holds_new _,
    fun s h => ⟨invariant_holds_select_left s h, invariant_holds_select_right s h,
      invariant_holds_select_up s h, invariant_holds_select_down s h⟩, ?_⟩
  intro today e d d' ws hinv h
  rcases (handle_event_shape today e d d' ws h).1 with h0 | h0 | h0 | h0 | h0 | ⟨n, h0⟩ <;>
    rw [h0]
  exacts [hinv, invariant_holds_select_left _ hinv, invariant_holds_select_right _ hinv,
    invariant_holds_select_up _ hinv, invariant_holds_select_down _ hinv,
    invariant_holds_new n]

/-- C3 witness: the invariant after a motion on a fresh two-item selector, and
after a concrete session step. -/
theorem c3_selector_invariant_witness :
    (ActivitySelectorState.new 2).select_right.invariant_holds = true ∧
    (Daila.new (ActivityTypesStore.mk [(0, ActivityType.mk 0 ("Run"))])
      (ActivitiesStore.mk []) 0).activity_selector_state.invariant_holds = true :=
  ⟨(c3_selector_invariant.2.2.1 (ActivitySelectorState.new 2)
      (c3_selector_invariant.1 2)).2.1,
    c3_selector_invariant.2.2.2 0 KeyCode.Left
      (Daila.new (ActivityTypesStore.mk [(0, ActivityType.mk 0 ("Run"))])
        (ActivitiesStore.mk []) 0)
      (Daila.new (ActivityTypesStore.mk [(0, ActivityType.mk 0 ("Run"))])
        (ActivitiesStore.mk []) 0) []
      (by decide) (by decide)⟩

/-- C5: in the Daila session state machine (src/daila.rs) a step performs
writes exactly when the state is `Default` and the key maps to `SaveAndQuit`,
and then it writes precisely the two stores; in particular the confirmed
quit-without-saving path performs no write.  However, the program's actual
entry point runs the legacy loop of src/main.rs, which saves BOTH stores on
its only exit path (the `'q'` quit): after toggling activity 0 and quitting
with `'q'`, the mutated log is written to disk. -/
theorem c5_saves_only_on_save_and_quit :
    (∀ (today : Int) (e : KeyCode) (d d' : Daila) (ws : List StoreWrite),
      Daila.handle_event today e d = some (d', ws) →
      ((ws ≠ [] ↔ (d.state = DailaState.Default ∧
        DailaEvent.from_keycode e = some DailaEvent.SaveAndQuit)) ∧
      (ws ≠ [] → ws = [StoreWrite.saveTypes d.activity_types,
        StoreWrite.saveActivities d.activities]))) ∧
    (legacy_run (ActivityTypesStore.mk [(0, ActivityType.mk 0 ("Run"))])
      (ActivitiesStore.mk []) 0 [KeyCode.Char ('0'), KeyCode.Char ('q')] =
      some (ActivitiesStore.mk [((0 : Int), [Activity.mk 0 0])],
        [StoreWrite.saveTypes (ActivityTypesStore.mk [(0, ActivityType.mk 0 ("Run"))]),
          StoreWrite.saveActivities
            (ActivitiesStore.mk [((0 : Int), [Activity.mk 0 0])])]) ∧
      ActivitiesStore.mk [((0 : Int), [Activity.mk 0 0])] ≠ ActivitiesStore.mk []) := by
  constructor
  · intro today e d d' ws h
    obtain ⟨-, hw, himp⟩ := handle_event_shape today e d d' ws h
    constructor
    · constructor
      · intro hne
        rcases hw with rfl | ⟨hws, hdef, hsq⟩
        · exact absurd rfl hne
        · exact ⟨hdef, hsq⟩
      · rintro ⟨hdef, hsq⟩
        rw [himp hdef hsq]
        simp
    · intro hne
      rcases hw with rfl | ⟨hws, hdef, hsq⟩
      · exact absurd rfl hne
      · exact hws
  · exact ⟨by decide, by decide⟩

/-- C5 witness: the write characterization applied to the save-and-quit step
from a fresh session on empty stores. -/
theorem c5_saves_only_on_save_and_quit_witness :
    (([StoreWrite.saveTypes (ActivityTypesStore.mk []),
        StoreWrite.saveActivities (ActivitiesStore.mk [])] : List StoreWrite) ≠ [] ↔
      ((Daila.new (ActivityTypesStore.mk []) (ActivitiesStore.mk []) 0).state =
          DailaState.Default ∧
        DailaEvent.from_keycode (KeyCode.Char ('s')) = some DailaEvent.SaveAndQuit)) ∧
    (([StoreWrite.saveTypes (ActivityTypesStore.mk []),
        StoreWrite.saveActivities (ActivitiesStore.mk [])] : List StoreWrite) ≠ [] →
      [StoreWrite.saveTypes (ActivityTypesStore.mk []),
        StoreWrite.saveActivities (ActivitiesStore.mk [])] =
      [StoreWrite.saveTypes (Daila.new (ActivityTypesStore.mk [])
          (ActivitiesStore.mk []) 0).activity_types,
        StoreWrite.saveActivities (Daila.new (ActivityTypesStore.mk [])
          (ActivitiesStore.mk []) 0).activities]) :=
  c5_saves_only_on_save_and_quit.1 0 (KeyCode.Char ('s'))
    (Daila.new (ActivityTypesStore.mk []) (ActivitiesStore.mk []) 0)
    (Daila.new (ActivityTypesStore.mk []) (ActivitiesStore.mk []) 0)
    [StoreWrite.saveTypes (ActivityTypesStore.mk []),
      StoreWrite.saveActivities (ActivitiesStore.mk [])]
    (by decide)

/-- C7 counterexample: with the focus on the exit button and buffer "ab",
Backspace still pops the buffer to "a" — the `Backspace` arm of
`ActivityPopup::handle_event` is not guarded by the focus, so the claim that
Backspace edits only under text focus is false. -/
theorem c7_backspace_edits_text_on_button_focus :
    ActivityPopup.handle_event KeyCode.Backspace
      (ActivityPopupState.mk none ActivityCursorPosition.ExitButton
        ['a', 'b'] PopupType.Create none) =
      some (ActivityPopupState.mk none ActivityCursorPosition.ExitButton
        ['a'] PopupType.Create none, none) ∧
    (['a'] : List Char) ≠ ['a', 'b'] := ⟨by decide, by decide⟩

/-- C7 (amended): a Character key edits the text buffer only when the focus is
on the text input (with a button focused it changes nothing), while Backspace
pops the last character of the buffer regardless of focus. -/
theorem c7_char_only_on_text_focus_backspace_always (s : ActivityPopupState)
    (c : Char) :
    (s.cursor_position ≠ ActivityCursorPosition.TextInput →
      ActivityPopup.handle_event (KeyCode.Char c) s = some (s, none)) ∧
    ActivityPopup.handle_event KeyCode.Backspace s =
      some ({ s with text_input := s.text_input.dropLast }, none) := by
  constructor
  · intro hfocus
    unfold ActivityPopup.handle_event
    dsimp only
    rw [if_neg hfocus]
  · rfl

/-- C7 witness: a Character key pressed with the exit button focused leaves
the buffer (and the whole state) unchanged. -/
theorem c7_char_only_on_text_focus_backspace_always_witness :
    ActivityPopup.handle_event (KeyCode.Char ('x'))
      (ActivityPopupState.mk none ActivityCursorPosition.ExitButton
        ['a'] PopupType.Create none) =
      some (ActivityPopupState.mk none ActivityCursorPosition.ExitButton
        ['a'] PopupType.Create none, none) :=
  (c7_char_only_on_text_focus_backspace_always
    (ActivityPopupState.mk none ActivityCursorPosition.ExitButton
      ['a'] PopupType.Create none) ('x')).1 (by decide)

/-- C10: a fresh confirmation popup state has its cursor on the left (cancel)
button, and Enter on it emits `Decline` — never `Accept` — so a bare Enter on
a delete or quit confirmation performs no destructive action. -/
theorem c10_fresh_confirmation_enter_declines (prompt : String) :
    (ConfirmationPopupState.new prompt).cursor_position =
      ConfirmationCursorPosition.LeftButton ∧
    ConfirmationPopup.handle_event KeyCode.Enter (ConfirmationPopupState.new prompt) =
      (ConfirmationPopupState.new prompt, some ConfirmationPopupAction.Decline) ∧
    (ConfirmationPopup.handle_event KeyCode.Enter
      (ConfirmationPopupState.new prompt)).2 ≠ some ConfirmationPopupAction.Accept := by
  refine ⟨rfl, rfl, ?_⟩
  intro hcon
  simp [ConfirmationPopup.handle_event, ConfirmationPopupState.new] at hcon

theorem mem_insertByActivityId (a o : ActivityOption) (l : List ActivityOption) :
    a ∈ insertByActivityId o l ↔ a = o ∨ a ∈ l := by
  induction l with
  | nil => simp [insertByActivityId]
  | cons b rest ih =>
    by_cases hle : o.activity_id ≤ b.activity_id
    · simp [insertByActivityId, hle]
    · simp [insertByActivityId, hle, ih]
      tauto

theorem mem_sortByActivityId (a : ActivityOption) (l : List ActivityOption) :
    a ∈ sortByActivityId l ↔ a ∈ l := by
  induction l with
  | nil => simp [sortByActivityId]
  | cons b rest ih => simp [sortByActivityId, mem_insertByActivityId, ih]

/-- Fidelity of the toggle model: the `completed` flag of the session's
selected option is exactly `activity_completed` of the log at the active date
for the option's type, as set by `activity_options`. -/
theorem selected_option_completed (d : Daila) (o : ActivityOption)
    (h : d.selected_activity_option = some o) :
    o.completed = d.activities.activity_completed d.active_date o.activity_type := by
  unfold Daila.selected_activity_option at h
  cases hsel : d.activity_selector_state.selected_index with
  | none =>
    rw [hsel] at h
    exact Option.noConfusion h
  | some i =>
    rw [hsel] at h
    have hmem : o ∈ d.activity_selector_options := List.get?_mem h
    unfold Daila.activity_selector_options activity_options at hmem
    rw [mem_sortByActivityId, List.mem_map] at hmem
    obtain ⟨t, htmem, hto⟩ := hmem
    subst hto
    rfl
